import Mathlib

/-!
Verification of `src/linalg.h`: two closed-form ray-intersection primitives,
`line2seg2d` (ray × segment, 2D) and `line2tri3d` (ray × triangle, 3D).

Scalars are modelled as exact rationals extended with a NaN element:
`F := Option ℚ`, where `none` plays the role of the IEEE NaN sentinel.
Arithmetic propagates NaN (any operation with a `none` operand yields
`none`, as IEEE arithmetic on NaN does), ordered comparisons and the
equality-with-zero test evaluate to `false` when an operand is NaN
(as IEEE ordered comparisons do).  Rounding is not modelled: the
algorithms are closed-form rational expressions and the spec's claims
are about their exact algebra and their NaN/sentinel policy.
-/

/-- A scalar of the model: a rational number, or `none` for NaN. -/
abbrev F : Type := Option ℚ

namespace F

/-- Addition, propagating NaN. -/
def add : F → F → F
  | some a, some b => some (a + b)
  | _, _ => none

/-- Subtraction, propagating NaN. -/
def sub : F → F → F
  | some a, some b => some (a - b)
  | _, _ => none

/-- Multiplication, propagating NaN. -/
def mul : F → F → F
  | some a, some b => some (a * b)
  | _, _ => none

/-- Negation, propagating NaN. -/
def neg : F → F
  | some a => some (-a)
  | none => none

/-- Division, propagating NaN.  In the source, division only ever happens
by a determinant that has passed the `det == 0` test, so the
division-by-zero branch (mapped to `none`) is unreachable there. -/
def div : F → F → F
  | some a, some b => if b = 0 then none else some (a / b)
  | _, _ => none

/-- The ordered comparison `a <= b`: false when either operand is NaN,
as in IEEE 754 (used by `between` and the acceptance tests). -/
def le (a b : F) : Bool :=
  match a, b with
  | some a, some b => decide (a ≤ b)
  | _, _ => false

/-- The test `a == 0`: false when `a` is NaN, as in IEEE 754
(used by the `det == 0` singularity checks). -/
def eq0 (a : F) : Bool :=
  match a with
  | some a => decide (a = 0)
  | none => false

/-- The literal `0.0f`. -/
def f0 : F := some 0

/-- The literal `1.0f`. -/
def f1 : F := some 1

end F

/-- `#define between(lower, x, upper) ((lower) <= (x) && (x) <= (upper))` -/
def between (lower x upper : F) : Bool :=
  F.le lower x && F.le x upper

/-- OpenCL `float2`: a pair of scalars. -/
structure float2 where
  x : F
  y : F

namespace float2

/-- Component-wise subtraction `a - b` of `float2`. -/
def sub (a b : float2) : float2 :=
  ⟨F.sub a.x b.x, F.sub a.y b.y⟩

/-- Component-wise division of a `float2` by a scalar (`v / det`). -/
def divS (a : float2) (s : F) : float2 :=
  ⟨F.div a.x s, F.div a.y s⟩

/-- OpenCL `dot` for `float2`. -/
def dot (a b : float2) : F :=
  F.add (F.mul a.x b.x) (F.mul a.y b.y)

end float2

/-- OpenCL `float3`: a triple of scalars. -/
structure float3 where
  x : F
  y : F
  z : F

namespace float3

/-- Component-wise subtraction `a - b` of `float3`. -/
def sub (a b : float3) : float3 :=
  ⟨F.sub a.x b.x, F.sub a.y b.y, F.sub a.z b.z⟩

/-- Component-wise division of a `float3` by a scalar (`v / det`). -/
def divS (a : float3) (s : F) : float3 :=
  ⟨F.div a.x s, F.div a.y s, F.div a.z s⟩

/-- OpenCL `dot` for `float3`. -/
def dot (a b : float3) : F :=
  F.add (F.add (F.mul a.x b.x) (F.mul a.y b.y)) (F.mul a.z b.z)

end float3

/-- The determinant of `line2seg2d`:
`det = A0.x*A1.y - A0.y*A1.x` with `A0 = direction`, `A1 = p0 - p1`. -/
def seg_det (direction p0 p1 : float2) : F :=
  let A0 := direction
  let A1 := float2.sub p0 p1
  F.sub (F.mul A0.x A1.y) (F.mul A0.y A1.x)

/-- The solved pair `res = (k, l)` of `line2seg2d`:
`Ai0 = (A1.y, -A1.x) / det`, `Ai1 = (-A0.y, A0.x) / det`,
`B = p0 - origin`, `res = (dot(Ai0, B), dot(Ai1, B))`. -/
def seg_res (origin direction p0 p1 : float2) : F × F :=
  let A0 := direction
  let A1 := float2.sub p0 p1
  let det := seg_det direction p0 p1
  let Ai0 := float2.divS ⟨A1.y, F.neg A1.x⟩ det
  let Ai1 := float2.divS ⟨F.neg A0.y, A0.x⟩ det
  let B := float2.sub p0 origin
  (float2.dot Ai0 B, float2.dot Ai1 B)

/-- `float line2seg2d(float2 origin, float2 direction, float2 p0, float2 p1)`:
returns `k` such that `origin + k*direction` lies between `p0` and `p1`,
or NaN (`none`) if such a point does not exist. -/
def line2seg2d (origin direction p0 p1 : float2) : F :=
  let det := seg_det direction p0 p1
  if F.eq0 det then none
  else
    let res := seg_res origin direction p0 p1
    if F.le F.f0 res.1 && between F.f0 res.2 F.f1 then res.1 else none

/-- The determinant of `line2tri3d`: the first-row cofactor expansion of the
column matrix `(A0, A1, A2)` with `A0 = direction`, `A1 = p0-p1`, `A2 = p0-p2`. -/
def tri_det (direction p0 p1 p2 : float3) : F :=
  let A0 := direction
  let A1 := float3.sub p0 p1
  let A2 := float3.sub p0 p2
  F.add
    (F.sub
      (F.mul A0.x (F.sub (F.mul A1.y A2.z) (F.mul A1.z A2.y)))
      (F.mul A0.y (F.sub (F.mul A1.x A2.z) (F.mul A1.z A2.x))))
    (F.mul A0.z (F.sub (F.mul A1.x A2.y) (F.mul A1.y A2.x)))

/-- The solved triple `res = (k, l, m)` of `line2tri3d`: the three adjugate
rows `Ai0, Ai1, Ai2` divided by `det`, each dotted with `B = p0 - origin`. -/
def tri_res (origin direction p0 p1 p2 : float3) : F × F × F :=
  let A0 := direction
  let A1 := float3.sub p0 p1
  let A2 := float3.sub p0 p2
  let det := tri_det direction p0 p1 p2
  let B := float3.sub p0 origin
  let Ai0 := float3.divS
    ⟨F.mul (some 1) (F.sub (F.mul A1.y A2.z) (F.mul A1.z A2.y)),
     F.mul (some (-1)) (F.sub (F.mul A1.x A2.z) (F.mul A1.z A2.x)),
     F.mul (some 1) (F.sub (F.mul A1.x A2.y) (F.mul A1.y A2.x))⟩ det
  let Ai1 := float3.divS
    ⟨F.mul (some (-1)) (F.sub (F.mul A0.y A2.z) (F.mul A0.z A2.y)),
     F.mul (some 1) (F.sub (F.mul A0.x A2.z) (F.mul A0.z A2.x)),
     F.mul (some (-1)) (F.sub (F.mul A0.x A2.y) (F.mul A0.y A2.x))⟩ det
  let Ai2 := float3.divS
    ⟨F.mul (some 1) (F.sub (F.mul A0.y A1.z) (F.mul A0.z A1.y)),
     F.mul (some (-1)) (F.sub (F.mul A0.x A1.z) (F.mul A0.z A1.x)),
     F.mul (some 1) (F.sub (F.mul A0.x A1.y) (F.mul A0.y A1.x))⟩ det
  (float3.dot Ai0 B, float3.dot Ai1 B, float3.dot Ai2 B)

/-- `float line2tri3d(float3 origin, float3 direction, float3 p0, float3 p1, float3 p2)`:
returns `k` such that `origin + k*direction` lies between `p0`, `p1` and `p2`,
or NaN (`none`) if such a point does not exist. -/
def line2tri3d (origin direction p0 p1 p2 : float3) : F :=
  let det := tri_det direction p0 p1 p2
  if F.eq0 det then none
  else
    let res := tri_res origin direction p0 p1 p2
    let in_triangle := between F.f0 res.2.1 F.f1 &&
                       between F.f0 res.2.2 F.f1 &&
                       between F.f0 (F.add res.2.1 res.2.2) F.f1
    if F.le F.f0 res.1 && in_triangle then res.1 else none

/-- A finite (non-NaN) `float2` built from two rationals. -/
def fin2 (a b : ℚ) : float2 := ⟨some a, some b⟩

/-- A finite (non-NaN) `float3` built from three rationals. -/
def fin3 (a b c : ℚ) : float3 := ⟨some a, some b, some c⟩

/-! ### NaN-propagation helper lemmas -/

namespace F

@[simp] lemma add_none_left (b : F) : add none b = none := by cases b <;> rfl

@[simp] lemma add_none_right (a : F) : add a none = none := by cases a <;> rfl

@[simp] lemma sub_none_left (b : F) : sub none b = none := by cases b <;> rfl

@[simp] lemma sub_none_right (a : F) : sub a none = none := by cases a <;> rfl

@[simp] lemma mul_none_left (b : F) : mul none b = none := by cases b <;> rfl

@[simp] lemma mul_none_right (a : F) : mul a none = none := by cases a <;> rfl

@[simp] lemma div_none_left (b : F) : div none b = none := by cases b <;> rfl

@[simp] lemma div_none_right (a : F) : div a none = none := by cases a <;> rfl

@[simp] lemma neg_none : neg none = none := rfl

@[simp] lemma le_none_left (b : F) : le none b = false := by cases b <;> rfl

@[simp] lemma le_none_right (a : F) : le a none = false := by cases a <;> rfl

@[simp] lemma eq0_none : eq0 none = false := rfl

/-- A true ordered comparison forces both operands to be non-NaN. -/
lemma le_true {a b : F} (h : le a b = true) :
    ∃ x y : ℚ, a = some x ∧ b = some y ∧ x ≤ y := by
  cases a with
  | none => simp [le] at h
  | some x =>
    cases b with
    | none => simp [le] at h
    | some y => exact ⟨x, y, rfl, rfl, by simpa [le] using h⟩

end F

/-! ### Collapse lemmas: a NaN determinant or a NaN ray origin forces the
sentinel result, because NaN propagates into `res` and every ordered
comparison on NaN is false. -/

/-- If the 2D determinant is NaN, `line2seg2d` returns the sentinel. -/
lemma line2seg2d_det_none (o d p0 p1 : float2) (h : seg_det d p0 p1 = none) :
    line2seg2d o d p0 p1 = none := by
  simp [line2seg2d, seg_res, h, float2.divS, float2.dot]

/-- If the 2D determinant is exactly zero, `line2seg2d` returns the sentinel. -/
lemma line2seg2d_det_zero (o d p0 p1 : float2) (h : seg_det d p0 p1 = some 0) :
    line2seg2d o d p0 p1 = none := by
  simp [line2seg2d, h, F.eq0]

/-- If a component of the ray origin is NaN, `line2seg2d` returns the
sentinel: `B = p0 - origin` is NaN in that component, so `k = dot(Ai0, B)`
is NaN and the acceptance comparison fails. -/
lemma line2seg2d_origin_none (o d p0 p1 : float2) (h : o.x = none ∨ o.y = none) :
    line2seg2d o d p0 p1 = none := by
  have hk : (seg_res o d p0 p1).1 = none := by
    rcases h with h | h <;>
      simp [seg_res, float2.sub, float2.dot, float2.divS, h]
  simp only [line2seg2d]
  by_cases h1 : F.eq0 (seg_det d p0 p1) = true
  · rw [if_pos h1]
  · rw [if_neg h1, hk]
    simp

/-- If the 3D determinant is NaN, `line2tri3d` returns the sentinel. -/
lemma line2tri3d_det_none (o d p0 p1 p2 : float3) (h : tri_det d p0 p1 p2 = none) :
    line2tri3d o d p0 p1 p2 = none := by
  simp [line2tri3d, tri_res, h, float3.divS, float3.dot]

/-- If the 3D determinant is exactly zero, `line2tri3d` returns the sentinel. -/
lemma line2tri3d_det_zero (o d p0 p1 p2 : float3) (h : tri_det d p0 p1 p2 = some 0) :
    line2tri3d o d p0 p1 p2 = none := by
  simp [line2tri3d, h, F.eq0]

/-- If a component of the ray origin is NaN, `line2tri3d` returns the sentinel. -/
lemma line2tri3d_origin_none (o d p0 p1 p2 : float3)
    (h : o.x = none ∨ o.y = none ∨ o.z = none) :
    line2tri3d o d p0 p1 p2 = none := by
  have hk : (tri_res o d p0 p1 p2).1 = none := by
    rcases h with h | h | h <;>
      simp [tri_res, float3.sub, float3.dot, float3.divS, h]
  simp only [line2tri3d]
  by_cases h1 : F.eq0 (tri_det d p0 p1 p2) = true
  · rw [if_pos h1]
  · rw [if_neg h1, hk]
    simp

/-! ### Characterization of the acceptance test on finite solutions -/

/-- When the 2D determinant is finite and nonzero and the solved pair is
finite, `line2seg2d` returns `k` exactly when `k ≥ 0` and `0 ≤ l ≤ 1`. -/
lemma line2seg2d_res (o d p0 p1 : float2) (hdet : F.eq0 (seg_det d p0 p1) = false)
    (k l : ℚ) (h : seg_res o d p0 p1 = (some k, some l)) :
    line2seg2d o d p0 p1 = if 0 ≤ k ∧ 0 ≤ l ∧ l ≤ 1 then some k else none := by
  simp only [line2seg2d, hdet, Bool.false_eq_true, if_false, h, between, F.le, F.f0, F.f1]
  simp [Bool.and_eq_true, decide_eq_true_eq, and_assoc]

/-- When the 3D determinant is finite and nonzero and the solved triple is
finite, `line2tri3d` returns `k` exactly when `k ≥ 0` and the barycentric
bounds hold inclusively. -/
lemma line2tri3d_res (o d p0 p1 p2 : float3) (hdet : F.eq0 (tri_det d p0 p1 p2) = false)
    (k l m : ℚ) (h : tri_res o d p0 p1 p2 = (some k, some l, some m)) :
    line2tri3d o d p0 p1 p2 =
      if 0 ≤ k ∧ (0 ≤ l ∧ l ≤ 1) ∧ (0 ≤ m ∧ m ≤ 1) ∧ (0 ≤ l + m ∧ l + m ≤ 1)
      then some k else none := by
  simp only [line2tri3d, hdet, Bool.false_eq_true, if_false, h, between, F.le, F.f0, F.f1, F.add]
  simp [Bool.and_eq_true, decide_eq_true_eq, and_assoc]

/-! ### Degenerate primitives give a zero (or NaN) determinant -/

/-- A zero-length segment (`p0 == p1`) makes the 2D determinant exactly
zero when the ray is finite, and NaN when it is not. -/
lemma seg_det_self (d p0 : float2) :
    seg_det d p0 p0 = some 0 ∨ seg_det d p0 p0 = none := by
  obtain ⟨dx, dy⟩ := d
  obtain ⟨ax, ay⟩ := p0
  cases dx <;> cases dy <;> cases ax <;> cases ay <;>
    simp [seg_det, float2.sub, F.sub, F.mul]

/-- The collinear triangle `(0,0,0), (1,0,0), (2,0,0)` makes the 3D
determinant exactly zero when the ray is finite, and NaN when it is not. -/
lemma tri_det_collinear (d : float3) :
    tri_det d (fin3 0 0 0) (fin3 1 0 0) (fin3 2 0 0) = some 0 ∨
    tri_det d (fin3 0 0 0) (fin3 1 0 0) (fin3 2 0 0) = none := by
  obtain ⟨dx, dy, dz⟩ := d
  cases dx <;> cases dy <;> cases dz <;>
    norm_num [tri_det, float3.sub, F.sub, F.mul, F.add, fin3]

/-! ### The claims -/

/-- C1: whenever the 3×3 determinant of the columns
`(direction, p0−p1, p0−p2)` is nonzero, the triple `(k, l, m)` computed by
`line2tri3d` through the adjugate rows is the exact solution of
`origin + k·direction = p0 + l·(p1−p0) + m·(p2−p0)`; hence every finite
value returned by `line2tri3d` is a ray parameter `k` for which such
`l, m` exist satisfying the acceptance bounds. -/
theorem line2tri3d_exact_solution
    (ox oy oz dx dy dz ax ay az bx bv bz cx cy cz : ℚ)
    (hdet : F.eq0 (tri_det (fin3 dx dy dz) (fin3 ax ay az) (fin3 bx bv bz)
      (fin3 cx cy cz)) = false) :
    ∃ k l m : ℚ,
      tri_res (fin3 ox oy oz) (fin3 dx dy dz) (fin3 ax ay az) (fin3 bx bv bz)
          (fin3 cx cy cz) = (some k, some l, some m) ∧
      (ox + k * dx = ax + l * (bx - ax) + m * (cx - ax) ∧
       oy + k * dy = ay + l * (bv - ay) + m * (cy - ay) ∧
       oz + k * dz = az + l * (bz - az) + m * (cz - az)) ∧
      ∀ k' : ℚ, line2tri3d (fin3 ox oy oz) (fin3 dx dy dz) (fin3 ax ay az)
          (fin3 bx bv bz) (fin3 cx cy cz) = some k' →
        0 ≤ k' ∧ ∃ l' m' : ℚ,
          (ox + k' * dx = ax + l' * (bx - ax) + m' * (cx - ax) ∧
           oy + k' * dy = ay + l' * (bv - ay) + m' * (cy - ay) ∧
           oz + k' * dz = az + l' * (bz - az) + m' * (cz - az)) ∧
          0 ≤ l' ∧ l' ≤ 1 ∧ 0 ≤ m' ∧ m' ≤ 1 ∧ 0 ≤ l' + m' ∧ l' + m' ≤ 1 := by
  simp only [tri_det, float3.sub, F.sub, F.mul, F.add, F.eq0, fin3,
    decide_eq_false_iff_not] at hdet
  simp only [line2tri3d, tri_res, tri_det, float3.sub, float3.divS, float3.dot, F.sub,
    F.mul, F.add, F.neg, F.div, F.eq0, F.le, F.f0, F.f1, between, fin3, hdet,
    if_false, decide_False, Bool.false_eq_true, if_neg hdet]
  refine ⟨_, _, _, rfl, ⟨by field_simp; ring, by field_simp; ring, by field_simp; ring⟩, ?_⟩
  intro k' hk'
  rcases ite_eq_iff.mp hk' with ⟨hcond, hk⟩ | ⟨hcond, hk⟩
  · simp only [Option.some.injEq] at hk
    subst hk
    simp only [Bool.and_eq_true, decide_eq_true_eq, and_assoc] at hcond
    obtain ⟨h0, hl0, hl1, hm0, hm1, hs0, hs1⟩ := hcond
    exact ⟨h0, _, _, ⟨by field_simp; ring, by field_simp; ring, by field_simp; ring⟩,
      hl0, hl1, hm0, hm1, hs0, hs1⟩
  · exact Option.noConfusion hk

/-- Witness for C1: the known-good 3D ray/triangle instance has a nonzero
determinant, and the theorem produces its exact solution. -/
theorem line2tri3d_exact_solution_witness :
    ∃ k l m : ℚ,
      tri_res (fin3 0 0 0) (fin3 0 0 1) (fin3 (-1) (-1) 1) (fin3 1 (-1) 1)
          (fin3 0 1 1) = (some k, some l, some m) ∧
      ((0:ℚ) + k * 0 = -1 + l * (1 - -1) + m * (0 - -1) ∧
       (0:ℚ) + k * 0 = -1 + l * (-1 - -1) + m * (1 - -1) ∧
       (0:ℚ) + k * 1 = 1 + l * (1 - 1) + m * (1 - 1)) ∧
      ∀ k' : ℚ, line2tri3d (fin3 0 0 0) (fin3 0 0 1) (fin3 (-1) (-1) 1)
          (fin3 1 (-1) 1) (fin3 0 1 1) = some k' →
        0 ≤ k' ∧ ∃ l' m' : ℚ,
          ((0:ℚ) + k' * 0 = -1 + l' * (1 - -1) + m' * (0 - -1) ∧
           (0:ℚ) + k' * 0 = -1 + l' * (-1 - -1) + m' * (1 - -1) ∧
           (0:ℚ) + k' * 1 = 1 + l' * (1 - 1) + m' * (1 - 1)) ∧
          0 ≤ l' ∧ l' ≤ 1 ∧ 0 ≤ m' ∧ m' ≤ 1 ∧ 0 ≤ l' + m' ∧ l' + m' ≤ 1 :=
  line2tri3d_exact_solution 0 0 0 0 0 1 (-1) (-1) 1 1 (-1) 1 0 1 1
    (by norm_num [tri_det, float3.sub, F.sub, F.mul, F.add, F.eq0, fin3])

/-- C2: whenever the 2×2 determinant of the columns `(direction, p0−p1)` is
nonzero, the pair `(k, l)` computed by `line2seg2d` through the inverse
rows is the exact solution of `origin + k·direction = p0 + l·(p1−p0)`;
hence every finite value returned by `line2seg2d` is a ray parameter `k`
for which such an `l` exists satisfying the acceptance bounds. -/
theorem line2seg2d_exact_solution (ox oy dx dy ax ay bx bw : ℚ)
    (hdet : F.eq0 (seg_det (fin2 dx dy) (fin2 ax ay) (fin2 bx bw)) = false) :
    ∃ k l : ℚ,
      seg_res (fin2 ox oy) (fin2 dx dy) (fin2 ax ay) (fin2 bx bw) = (some k, some l) ∧
      (ox + k * dx = ax + l * (bx - ax) ∧ oy + k * dy = ay + l * (bw - ay)) ∧
      ∀ k' : ℚ, line2seg2d (fin2 ox oy) (fin2 dx dy) (fin2 ax ay) (fin2 bx bw) = some k' →
        0 ≤ k' ∧ ∃ l' : ℚ,
          (ox + k' * dx = ax + l' * (bx - ax) ∧ oy + k' * dy = ay + l' * (bw - ay)) ∧
          0 ≤ l' ∧ l' ≤ 1 := by
  simp only [seg_det, float2.sub, F.sub, F.mul, F.eq0, fin2, decide_eq_false_iff_not] at hdet
  simp only [line2seg2d, seg_res, seg_det, float2.sub, float2.divS, float2.dot, F.sub,
    F.mul, F.add, F.neg, F.div, F.eq0, F.le, F.f0, F.f1, between, fin2, hdet,
    if_false, decide_False, Bool.false_eq_true, if_neg hdet]
  refine ⟨_, _, rfl, ⟨by field_simp; ring, by field_simp; ring⟩, ?_⟩
  intro k' hk'
  rcases ite_eq_iff.mp hk' with ⟨hcond, hk⟩ | ⟨hcond, hk⟩
  · simp only [Option.some.injEq] at hk
    subst hk
    simp only [Bool.and_eq_true, decide_eq_true_eq, and_assoc] at hcond
    obtain ⟨h0, hl0, hl1⟩ := hcond
    exact ⟨h0, _, ⟨by field_simp; ring, by field_simp; ring⟩, hl0, hl1⟩
  · exact Option.noConfusion hk

/-- Witness for C2: the known-good 2D ray/segment instance has a nonzero
determinant, and the theorem produces its exact solution. -/
theorem line2seg2d_exact_solution_witness :
    ∃ k l : ℚ,
      seg_res (fin2 0 0) (fin2 1 0) (fin2 2 (-1)) (fin2 2 1) = (some k, some l) ∧
      ((0:ℚ) + k * 1 = 2 + l * (2 - 2) ∧ (0:ℚ) + k * 0 = -1 + l * (1 - -1)) ∧
      ∀ k' : ℚ, line2seg2d (fin2 0 0) (fin2 1 0) (fin2 2 (-1)) (fin2 2 1) = some k' →
        0 ≤ k' ∧ ∃ l' : ℚ,
          ((0:ℚ) + k' * 1 = 2 + l' * (2 - 2) ∧ (0:ℚ) + k' * 0 = -1 + l' * (1 - -1)) ∧
          0 ≤ l' ∧ l' ≤ 1 :=
  line2seg2d_exact_solution 0 0 1 0 2 (-1) 2 1
    (by norm_num [seg_det, float2.sub, F.sub, F.mul, F.eq0, fin2])

/-- C3: whenever `line2seg2d` or `line2tri3d` returns a finite value `k`,
then `k ≥ 0` and the barycentric coordinates computed in that same call
satisfy the inclusive containment bounds (`0 ≤ l ≤ 1`, and for the
triangle also `0 ≤ m ≤ 1` and `0 ≤ l + m ≤ 1`); a negative parameter is
never returned. -/
theorem returned_parameter_nonneg_and_contained :
    (∀ (o d p0 p1 : float2) (k : ℚ), line2seg2d o d p0 p1 = some k →
      0 ≤ k ∧ (seg_res o d p0 p1).1 = some k ∧
      ∃ l : ℚ, (seg_res o d p0 p1).2 = some l ∧ 0 ≤ l ∧ l ≤ 1) ∧
    (∀ (o d p0 p1 p2 : float3) (k : ℚ), line2tri3d o d p0 p1 p2 = some k →
      0 ≤ k ∧ (tri_res o d p0 p1 p2).1 = some k ∧
      ∃ l m : ℚ, (tri_res o d p0 p1 p2).2.1 = some l ∧ (tri_res o d p0 p1 p2).2.2 = some m ∧
        0 ≤ l ∧ l ≤ 1 ∧ 0 ≤ m ∧ m ≤ 1 ∧ 0 ≤ l + m ∧ l + m ≤ 1) := by
  constructor
  · intro o d p0 p1 k h
    simp only [line2seg2d] at h
    by_cases h1 : F.eq0 (seg_det d p0 p1) = true
    · rw [if_pos h1] at h
      exact Option.noConfusion h
    · rw [if_neg h1] at h
      rcases ite_eq_iff.mp h with ⟨hc, hk⟩ | ⟨_, hk⟩
      · rw [Bool.and_eq_true] at hc
        obtain ⟨hc1, hc2⟩ := hc
        rw [between, Bool.and_eq_true] at hc2
        obtain ⟨hc2a, hc2b⟩ := hc2
        obtain ⟨z, kq, hz, hkq, hkle⟩ := F.le_true hc1
        obtain ⟨z2, lq, hz2, hlq, hlle⟩ := F.le_true hc2a
        obtain ⟨lq2, o1, hlq2, ho1, hlle2⟩ := F.le_true hc2b
        simp only [F.f0, Option.some.injEq] at hz hz2
        simp only [F.f1, Option.some.injEq] at ho1
        subst hz hz2 ho1
        rw [hk] at hkq
        rw [hlq] at hlq2
        simp only [Option.some.injEq] at hkq hlq2
        subst hkq
        subst hlq2
        exact ⟨hkle, hk, lq, hlq, hlle, hlle2⟩
      · exact Option.noConfusion hk
  · intro o d p0 p1 p2 k h
    simp only [line2tri3d] at h
    by_cases h1 : F.eq0 (tri_det d p0 p1 p2) = true
    · rw [if_pos h1] at h
      exact Option.noConfusion h
    · rw [if_neg h1] at h
      rcases ite_eq_iff.mp h with ⟨hc, hk⟩ | ⟨_, hk⟩
      · rw [Bool.and_eq_true] at hc
        obtain ⟨hc1, hc2⟩ := hc
        rw [Bool.and_eq_true] at hc2
        obtain ⟨hc2a, hc2c⟩ := hc2
        rw [Bool.and_eq_true] at hc2a
        obtain ⟨hc2a, hc2b⟩ := hc2a
        rw [between, Bool.and_eq_true] at hc2a
        rw [between, Bool.and_eq_true] at hc2b
        rw [between, Bool.and_eq_true] at hc2c
        obtain ⟨hla, hlb⟩ := hc2a
        obtain ⟨hma, hmb⟩ := hc2b
        obtain ⟨hsa, hsb⟩ := hc2c
        obtain ⟨z, kq, hz, hkq, hkle⟩ := F.le_true hc1
        obtain ⟨z2, lq, hz2, hlq, hlle⟩ := F.le_true hla
        obtain ⟨lq2, o1, hlq2, ho1, hlle2⟩ := F.le_true hlb
        obtain ⟨z3, mq, hz3, hmq, hmle⟩ := F.le_true hma
        obtain ⟨mq2, o2, hmq2, ho2, hmle2⟩ := F.le_true hmb
        simp only [F.f0, Option.some.injEq] at hz hz2 hz3
        simp only [F.f1, Option.some.injEq] at ho1 ho2
        subst hz hz2 hz3 ho1 ho2
        rw [hk] at hkq
        rw [hlq] at hlq2
        rw [hmq] at hmq2
        simp only [Option.some.injEq] at hkq hlq2 hmq2
        subst hkq
        subst hlq2
        subst hmq2
        have hsum : F.add (tri_res o d p0 p1 p2).2.1 (tri_res o d p0 p1 p2).2.2 =
            some (lq + mq) := by
          rw [hlq, hmq]; rfl
        rw [hsum] at hsa hsb
        obtain ⟨z4, sq, hz4, hsq, hsle⟩ := F.le_true hsa
        obtain ⟨sq2, o3, hsq2, ho3, hsle2⟩ := F.le_true hsb
        simp only [F.f0, Option.some.injEq] at hz4
        simp only [F.f1, Option.some.injEq] at ho3
        simp only [Option.some.injEq] at hsq hsq2
        subst hz4 ho3
        rw [← hsq] at hsle
        rw [← hsq2] at hsle2
        exact ⟨hkle, hk, lq, mq, hlq, hmq, hlle, hlle2, hmle, hmle2, hsle, hsle2⟩
      · exact Option.noConfusion hk

/-- Witness for C3: the known-good 2D call returns `k = 2 ≥ 0` with its
barycentric coordinate inside `[0, 1]`. -/
theorem returned_parameter_nonneg_and_contained_witness :
    0 ≤ (2:ℚ) ∧ (seg_res (fin2 0 0) (fin2 1 0) (fin2 2 (-1)) (fin2 2 1)).1 = some 2 ∧
    ∃ l : ℚ, (seg_res (fin2 0 0) (fin2 1 0) (fin2 2 (-1)) (fin2 2 1)).2 = some l ∧
      0 ≤ l ∧ l ≤ 1 :=
  returned_parameter_nonneg_and_contained.1 (fin2 0 0) (fin2 1 0) (fin2 2 (-1)) (fin2 2 1) 2
    (by norm_num [line2seg2d, seg_det, seg_res, float2.sub, float2.divS, float2.dot,
      F.sub, F.mul, F.add, F.neg, F.div, F.le, F.eq0, F.f0, F.f1, between, fin2])

/-- C4: in both functions, a determinant exactly equal to zero (exact
equality, no epsilon — `F.eq0` is false on NaN and on every nonzero
rational) makes the function return the NaN sentinel; the functions are
total, so the sentinel return value is the sole failure channel. -/
theorem det_zero_returns_sentinel :
    (∀ o d p0 p1 : float2, F.eq0 (seg_det d p0 p1) = true →
      line2seg2d o d p0 p1 = none) ∧
    (∀ o d p0 p1 p2 : float3, F.eq0 (tri_det d p0 p1 p2) = true →
      line2tri3d o d p0 p1 p2 = none) := by
  constructor
  · intro o d p0 p1 h
    simp [line2seg2d, h]
  · intro o d p0 p1 p2 h
    simp [line2tri3d, h]

/-- Witness for C4: a zero ray direction gives determinant exactly zero in
both functions, and both return the sentinel. -/
theorem det_zero_returns_sentinel_witness :
    line2seg2d (fin2 0 0) (fin2 0 0) (fin2 1 0) (fin2 2 0) = none ∧
    line2tri3d (fin3 0 0 0) (fin3 0 0 0) (fin3 0 0 1) (fin3 1 0 1) (fin3 0 1 1) = none :=
  ⟨det_zero_returns_sentinel.1 (fin2 0 0) (fin2 0 0) (fin2 1 0) (fin2 2 0)
      (by norm_num [seg_det, float2.sub, F.sub, F.mul, F.eq0, fin2]),
   det_zero_returns_sentinel.2 (fin3 0 0 0) (fin3 0 0 0) (fin3 0 0 1) (fin3 1 0 1)
      (fin3 0 1 1)
      (by norm_num [tri_det, float3.sub, F.sub, F.mul, F.add, F.eq0, fin3])⟩

/-- C5: for every ray, `line2seg2d` on a zero-length segment (`p0 == p1`)
returns the NaN sentinel, and `line2tri3d` on the collinear degenerate
triangle `(0,0,0), (1,0,0), (2,0,0)` returns the NaN sentinel. -/
theorem degenerate_primitive_sentinel :
    (∀ o d p0 : float2, line2seg2d o d p0 p0 = none) ∧
    (∀ o d : float3, line2tri3d o d (fin3 0 0 0) (fin3 1 0 0) (fin3 2 0 0) = none) := by
  constructor
  · intro o d p0
    rcases seg_det_self d p0 with h | h
    · exact line2seg2d_det_zero _ _ _ _ h
    · exact line2seg2d_det_none _ _ _ _ h
  · intro o d
    rcases tri_det_collinear d with h | h
    · exact line2tri3d_det_zero _ _ _ _ _ h
    · exact line2tri3d_det_none _ _ _ _ _ h

/-- C7: the known-good 3D case (ray `(0,0,0)` toward `(0,0,1)` against the
triangle in the plane `z = 1`) returns `k = 1`; with direction `(0,0,-1)`
the candidate parameter is `k = -1`, which is negative, so the call
returns the sentinel. -/
theorem known_cases_3d :
    line2tri3d (fin3 0 0 0) (fin3 0 0 1) (fin3 (-1) (-1) 1) (fin3 1 (-1) 1)
        (fin3 0 1 1) = some 1 ∧
    (tri_res (fin3 0 0 0) (fin3 0 0 (-1)) (fin3 (-1) (-1) 1) (fin3 1 (-1) 1)
        (fin3 0 1 1)).1 = some (-1) ∧
    line2tri3d (fin3 0 0 0) (fin3 0 0 (-1)) (fin3 (-1) (-1) 1) (fin3 1 (-1) 1)
        (fin3 0 1 1) = none := by
  refine ⟨?_, ?_, ?_⟩ <;>
    norm_num [line2tri3d, tri_det, tri_res, float3.sub, float3.divS, float3.dot,
      F.sub, F.mul, F.add, F.neg, F.div, F.le, F.eq0, F.f0, F.f1, between, fin3]

/-- C8: the known-good 2D case (ray `(0,0)` toward `(1,0)` against the
vertical segment at `x = 2` straddling the axis) returns `k = 2`; the
segment entirely above the ray's line yields the sentinel. -/
theorem known_cases_2d :
    line2seg2d (fin2 0 0) (fin2 1 0) (fin2 2 (-1)) (fin2 2 1) = some 2 ∧
    line2seg2d (fin2 0 0) (fin2 1 0) (fin2 2 1) (fin2 2 2) = none := by
  refine ⟨?_, ?_⟩ <;>
    norm_num [line2seg2d, seg_det, seg_res, float2.sub, float2.divS, float2.dot,
      F.sub, F.mul, F.add, F.neg, F.div, F.le, F.eq0, F.f0, F.f1, between, fin2]

/-- C6: the acceptance bounds are inclusive at both ends: when the solved
coordinates satisfy every bound and `l` (or `m`, or `l + m`) sits exactly
on a boundary value, the function still returns the finite `k` rather than
the sentinel. -/
theorem boundary_inclusive_accepted :
    (∀ (o d p0 p1 : float2) (k l : ℚ),
      F.eq0 (seg_det d p0 p1) = false →
      seg_res o d p0 p1 = (some k, some l) →
      0 ≤ k → 0 ≤ l → l ≤ 1 → (l = 0 ∨ l = 1) →
      line2seg2d o d p0 p1 = some k) ∧
    (∀ (o d p0 p1 p2 : float3) (k l m : ℚ),
      F.eq0 (tri_det d p0 p1 p2) = false →
      tri_res o d p0 p1 p2 = (some k, some l, some m) →
      0 ≤ k → 0 ≤ l → l ≤ 1 → 0 ≤ m → m ≤ 1 → 0 ≤ l + m → l + m ≤ 1 →
      (l = 0 ∨ l = 1 ∨ m = 0 ∨ m = 1 ∨ l + m = 0 ∨ l + m = 1) →
      line2tri3d o d p0 p1 p2 = some k) := by
  constructor
  · intro o d p0 p1 k l hdet hres hk hl0 hl1 _
    rw [line2seg2d_res o d p0 p1 hdet k l hres, if_pos ⟨hk, hl0, hl1⟩]
  · intro o d p0 p1 p2 k l m hdet hres hk hl0 hl1 hm0 hm1 hs0 hs1 _
    rw [line2tri3d_res o d p0 p1 p2 hdet k l m hres,
      if_pos ⟨hk, ⟨hl0, hl1⟩, ⟨hm0, hm1⟩, hs0, hs1⟩]

/-- Witness for C6: a ray hitting the exact endpoint `p0` of a segment
(`l = 0`) is accepted with `k = 2`, and a ray hitting the exact vertex
`p0` of a triangle (`l = m = 0`) is accepted with `k = 1`. -/
theorem boundary_inclusive_accepted_witness :
    line2seg2d (fin2 0 0) (fin2 1 0) (fin2 2 0) (fin2 2 1) = some 2 ∧
    line2tri3d (fin3 0 0 0) (fin3 0 0 1) (fin3 0 0 1) (fin3 1 0 1) (fin3 0 1 1) = some 1 :=
  ⟨boundary_inclusive_accepted.1 (fin2 0 0) (fin2 1 0) (fin2 2 0) (fin2 2 1) 2 0
      (by norm_num [seg_det, float2.sub, F.sub, F.mul, F.eq0, fin2])
      (by norm_num [seg_res, seg_det, float2.sub, float2.divS, float2.dot,
        F.sub, F.mul, F.add, F.neg, F.div, fin2])
      (by norm_num) (by norm_num) (by norm_num) (Or.inl rfl),
   boundary_inclusive_accepted.2 (fin3 0 0 0) (fin3 0 0 1) (fin3 0 0 1) (fin3 1 0 1)
      (fin3 0 1 1) 1 0 0
      (by norm_num [tri_det, float3.sub, F.sub, F.mul, F.add, F.eq0, fin3])
      (by norm_num [tri_res, tri_det, float3.sub, float3.divS, float3.dot,
        F.sub, F.mul, F.add, F.neg, F.div, fin3])
      (by norm_num) (by norm_num) (by norm_num) (by norm_num) (by norm_num)
      (by norm_num) (by norm_num) (Or.inl rfl)⟩

/-- C9: a NaN in any component of any argument makes both functions return
NaN: the `det == 0` test is false on a NaN determinant and every ordered
acceptance comparison is false on a NaN coordinate, so a NaN-containing
input can never produce a finite return value. -/
theorem nan_input_returns_nan :
    (∀ o d p0 p1 : float2,
      (o.x = none ∨ o.y = none ∨ d.x = none ∨ d.y = none ∨
       p0.x = none ∨ p0.y = none ∨ p1.x = none ∨ p1.y = none) →
      line2seg2d o d p0 p1 = none) ∧
    (∀ o d p0 p1 p2 : float3,
      (o.x = none ∨ o.y = none ∨ o.z = none ∨
       d.x = none ∨ d.y = none ∨ d.z = none ∨
       p0.x = none ∨ p0.y = none ∨ p0.z = none ∨
       p1.x = none ∨ p1.y = none ∨ p1.z = none ∨
       p2.x = none ∨ p2.y = none ∨ p2.z = none) →
      line2tri3d o d p0 p1 p2 = none) := by
  constructor
  · intro o d p0 p1 h
    rcases h with h | h | h | h | h | h | h | h
    · exact line2seg2d_origin_none _ _ _ _ (Or.inl h)
    · exact line2seg2d_origin_none _ _ _ _ (Or.inr h)
    all_goals exact line2seg2d_det_none _ _ _ _ (by simp [seg_det, float2.sub, h])
  · intro o d p0 p1 p2 h
    rcases h with h | h | h | h | h | h | h | h | h | h | h | h | h | h | h
    · exact line2tri3d_origin_none _ _ _ _ _ (Or.inl h)
    · exact line2tri3d_origin_none _ _ _ _ _ (Or.inr (Or.inl h))
    · exact line2tri3d_origin_none _ _ _ _ _ (Or.inr (Or.inr h))
    all_goals exact line2tri3d_det_none _ _ _ _ _ (by simp [tri_det, float3.sub, h])

/-- Witness for C9: a NaN in the ray origin's first component yields the
sentinel on an otherwise-hitting 2D instance. -/
theorem nan_input_returns_nan_witness :
    line2seg2d ⟨none, some 0⟩ (fin2 1 0) (fin2 2 (-1)) (fin2 2 1) = none :=
  nan_input_returns_nan.1 ⟨none, some 0⟩ (fin2 1 0) (fin2 2 (-1)) (fin2 2 1) (Or.inl rfl)

/-- C10: `line2seg2d` is invariant under swapping the segment endpoints:
the determinant flips sign, the barycentric coordinate becomes `1 - l`,
and the solved ray parameter and the inclusive acceptance test are
unchanged, so the two calls return the same value (finite or sentinel). -/
theorem line2seg2d_swap_endpoints (o d p0 p1 : float2) :
    line2seg2d o d p1 p0 = line2seg2d o d p0 p1 := by
  obtain ⟨ox, oy⟩ := o
  obtain ⟨dx, dy⟩ := d
  obtain ⟨ax, ay⟩ := p0
  obtain ⟨bx, bw⟩ := p1
  cases dx <;> cases dy <;> cases ax <;> cases ay <;> cases bx <;> cases bw <;>
    try exact Eq.trans (line2seg2d_det_none _ _ _ _ rfl) (Eq.symm (line2seg2d_det_none _ _ _ _ rfl))
  rename_i dx dy ax ay bx bw
  by_cases hD : dx * (ay - bw) - dy * (ax - bx) = 0
  · have h1 : seg_det ⟨some dx, some dy⟩ ⟨some ax, some ay⟩ ⟨some bx, some bw⟩ = some 0 := by
      simp only [seg_det, float2.sub, F.sub, F.mul]
      rw [hD]
    have h2 : seg_det ⟨some dx, some dy⟩ ⟨some bx, some bw⟩ ⟨some ax, some ay⟩ = some 0 := by
      simp only [seg_det, float2.sub, F.sub, F.mul]
      have h3 : dx * (bw - ay) - dy * (bx - ax) = 0 := by linear_combination -hD
      rw [h3]
    rw [line2seg2d_det_zero _ _ _ _ h2, line2seg2d_det_zero _ _ _ _ h1]
  · have hD' : dx * (bw - ay) - dy * (bx - ax) ≠ 0 := by
      intro h
      exact hD (by linear_combination -h)
    have hdet1 : F.eq0 (seg_det ⟨some dx, some dy⟩ ⟨some ax, some ay⟩
        ⟨some bx, some bw⟩) = false := by
      simp [seg_det, float2.sub, F.sub, F.mul, F.eq0, hD]
    have hdet2 : F.eq0 (seg_det ⟨some dx, some dy⟩ ⟨some bx, some bw⟩
        ⟨some ax, some ay⟩) = false := by
      simp [seg_det, float2.sub, F.sub, F.mul, F.eq0, hD']
    cases ox with
    | none =>
      rw [line2seg2d_origin_none _ _ _ _ (Or.inl rfl),
          line2seg2d_origin_none _ _ _ _ (Or.inl rfl)]
    | some ox =>
      cases oy with
      | none =>
        rw [line2seg2d_origin_none _ _ _ _ (Or.inr rfl),
            line2seg2d_origin_none _ _ _ _ (Or.inr rfl)]
      | some oy =>
        have hres1 : seg_res ⟨some ox, some oy⟩ ⟨some dx, some dy⟩ ⟨some ax, some ay⟩
            ⟨some bx, some bw⟩ =
            (some (((ay - bw) * (ax - ox) - (ax - bx) * (ay - oy)) /
                (dx * (ay - bw) - dy * (ax - bx))),
             some ((dx * (ay - oy) - dy * (ax - ox)) /
                (dx * (ay - bw) - dy * (ax - bx)))) := by
          simp only [seg_res, seg_det, float2.sub, float2.divS, float2.dot, F.sub, F.mul,
            F.add, F.neg, F.div, if_neg hD, Prod.mk.injEq, Option.some.injEq]
          constructor <;> (field_simp; ring)
        have hres2 : seg_res ⟨some ox, some oy⟩ ⟨some dx, some dy⟩ ⟨some bx, some bw⟩
            ⟨some ax, some ay⟩ =
            (some (((ay - bw) * (ax - ox) - (ax - bx) * (ay - oy)) /
                (dx * (ay - bw) - dy * (ax - bx))),
             some (1 - (dx * (ay - oy) - dy * (ax - ox)) /
                (dx * (ay - bw) - dy * (ax - bx)))) := by
          simp only [seg_res, seg_det, float2.sub, float2.divS, float2.dot, F.sub, F.mul,
            F.add, F.neg, F.div, if_neg hD', Prod.mk.injEq, Option.some.injEq]
          constructor <;> (field_simp; ring)
        rw [line2seg2d_res _ _ _ _ hdet2 _ _ hres2, line2seg2d_res _ _ _ _ hdet1 _ _ hres1]
        refine if_congr ?_ rfl rfl
        constructor <;> rintro ⟨h1, h2, h3⟩ <;> exact ⟨h1, by linarith, by linarith⟩
